import Mathlib

/-!
Verification of the open-flag cache layer and flag CRUD handlers.

The definitions below are a shallow embedding of the Python sources:
* `src/backend/app/models.py`  — the `Flag` record and its schemas,
* `src/backend/app/cache.py`   — `InMemoryCache`, `RedisCache`, `create_cache`,
* `src/backend/app/routers/flags.py` — the CRUD endpoint handlers and
  `_validate_flag_value`.

Timestamps are modelled as integers (`datetime.utcnow()` values are passed
explicitly as `now` arguments).  The Python `dict` backing `InMemoryCache`
is modelled as a function map `String → Option α`; the Redis keyspace is an
association list so that `clear`'s key enumeration (`KEYS prefix*`) can be
modelled.  Fallible external effects (the database commit, the network) are
modelled by explicit success/failure arguments, and exceptions by `Except`.
-/

namespace OpenFlag

/-! ## Data model (`models.py`) -/

/-- `FlagType` enum from `models.py`: boolean, string, number, json. -/
inductive FlagType
  | boolean
  | string
  | number
  | json
deriving DecidableEq, Repr

/-- The `Flag` table model from `models.py`. -/
structure Flag where
  id : Option Int
  key : String
  name : String
  description : Option String
  type : FlagType
  value : String
  enabled : Bool
  created_at : Int
  updated_at : Int
deriving DecidableEq, Repr

/-- `FlagCreate` schema from `models.py`. -/
structure FlagCreate where
  key : String
  name : String
  description : Option String := none
  type : FlagType := .boolean
  value : String := "false"
  enabled : Bool := true
deriving DecidableEq, Repr

/-- `FlagUpdate` schema from `models.py`: every field optional; an absent
field is excluded by `model_dump(exclude_unset=True)`. -/
structure FlagUpdate where
  name : Option String := none
  description : Option (Option String) := none
  type : Option FlagType := none
  value : Option String := none
  enabled : Option Bool := none
deriving DecidableEq, Repr

/-! ## A Python `dict` as a function map -/

/-- A Python `dict` keyed by strings, modelled extensionally. -/
def Map (α : Type) : Type := String → Option α

/-- `{}` — the empty dict. -/
def Map.empty {α : Type} : Map α := fun _ => none

/-- `d[k]` / `k in d` lookup. -/
def Map.get {α : Type} (m : Map α) (k : String) : Option α := m k

/-- `d[k] = v`. -/
def Map.set {α : Type} (m : Map α) (k : String) (v : α) : Map α :=
  fun k' => if k' = k then some v else m k'

/-- `d.pop(k, None)` / `del d[k]`. -/
def Map.erase {α : Type} (m : Map α) (k : String) : Map α :=
  fun k' => if k' = k then none else m k'

@[simp] theorem Map.get_set_self {α : Type} (m : Map α) (k : String) (v : α) :
    (m.set k v).get k = some v := by
  simp [Map.get, Map.set]

@[simp] theorem Map.get_set_ne {α : Type} (m : Map α) (k k' : String) (v : α)
    (h : k' ≠ k) : (m.set k v).get k' = m.get k' := by
  simp [Map.get, Map.set, h]

@[simp] theorem Map.get_erase_self {α : Type} (m : Map α) (k : String) :
    (m.erase k).get k = none := by
  simp [Map.get, Map.erase]

@[simp] theorem Map.get_erase_ne {α : Type} (m : Map α) (k k' : String)
    (h : k' ≠ k) : (m.erase k).get k' = m.get k' := by
  simp [Map.get, Map.erase, h]

theorem Map.erase_of_get_none {α : Type} (m : Map α) (k : String)
    (h : m.get k = none) : m.erase k = m := by
  funext k'
  by_cases hk : k' = k
  · subst hk; simpa [Map.erase] using h.symm
  · simp [Map.erase, hk]

theorem Map.erase_erase {α : Type} (m : Map α) (k : String) :
    (m.erase k).erase k = m.erase k := by
  funext k'
  by_cases hk : k' = k <;> simp [Map.erase, hk]

/-! ## `InMemoryCache` (`cache.py` lines 17–48)

Entries pair the flag with the `datetime.utcnow()` timestamp recorded by
`set`; `_ttl = timedelta(seconds=ttl_seconds)`.  Each method that reads the
clock takes the current time `now` explicitly. -/

structure InMemoryCache where
  cache : Map (Flag × Int)
  ttl : Int

/-- `InMemoryCache.__init__`: empty dict, `_ttl = timedelta(seconds=ttl_seconds)`. -/
def InMemoryCache.init (ttl_seconds : Int) : InMemoryCache :=
  { cache := Map.empty, ttl := ttl_seconds }

/-- `InMemoryCache.get`: miss if the key is absent; if
`datetime.utcnow() - timestamp > self._ttl` the entry is deleted and the
lookup reports a miss; otherwise the cached flag is returned. -/
def InMemoryCache.get (c : InMemoryCache) (now : Int) (key : String) :
    Option Flag × InMemoryCache :=
  match c.cache.get key with
  | none => (none, c)
  | some (flag, timestamp) =>
      if now - timestamp > c.ttl then
        (none, { c with cache := c.cache.erase key })
      else
        (some flag, c)

/-- `InMemoryCache.set`: store `(flag, datetime.utcnow())`. -/
def InMemoryCache.set (c : InMemoryCache) (now : Int) (key : String)
    (flag : Flag) : InMemoryCache :=
  { c with cache := c.cache.set key (flag, now) }

/-- `InMemoryCache.delete`: `self._cache.pop(key, None)`. -/
def InMemoryCache.delete (c : InMemoryCache) (key : String) : InMemoryCache :=
  { c with cache := c.cache.erase key }

/-- `InMemoryCache.clear`: `self._cache.clear()`. -/
def InMemoryCache.clear (c : InMemoryCache) : InMemoryCache :=
  { c with cache := Map.empty }

/-! ## `RedisCache` (`cache.py` lines 51–88)

The Redis keyspace is an association list of string keys and string values
(`decode_responses=True`, so values are `str`).  A network failure of the
redis client call is modelled by the `netOk` argument: when `netOk = false`
the client call raises, and since none of the network calls in the source
sit inside a `try` block, the exception propagates as `Except.error`.  The
`try`/`except` around `json.loads`/`Flag(**flag_dict)` in `get` is modelled
by the total decoder `decode : String → Option Flag` (`none` = the
deserialization raised).  Server-side TTL bookkeeping of `setex` is not
observed by any claim and is not tracked beyond the `ttl` argument. -/

inductive RedisErr
  | network
deriving DecidableEq, Repr

/-- Lookup in the Redis keyspace. -/
def listGet : List (String × String) → String → Option String
  | [], _ => none
  | (k, v) :: rest, key => if k = key then some v else listGet rest key

/-- `SET`/`SETEX` on the Redis keyspace: overwrite or append. -/
def listSet : List (String × String) → String → String → List (String × String)
  | [], key, val => [(key, val)]
  | (k, v) :: rest, key, val =>
      if k = key then (key, val) :: rest else (k, v) :: listSet rest key val

/-- `DEL key` on the Redis keyspace. -/
def listErase : List (String × String) → String → List (String × String)
  | [], _ => []
  | (k, v) :: rest, key =>
      if k = key then listErase rest key else (k, v) :: listErase rest key

/-- Boolean prefix test on character lists (the `KEYS "pre*"` glob:
the pattern `openflag:flag:*` has no glob metacharacters besides the
trailing `*`, so it matches exactly the keys starting with the namespace). -/
def listStartsWith : List Char → List Char → Bool
  | [], _ => true
  | _ :: _, [] => false
  | a :: as, b :: bs => a == b && listStartsWith as bs

/-- `self._prefix = "openflag:flag:"` from `RedisCache.__init__`. -/
def flagKeyNs : String := "openflag:flag:"

/-- Whether a Redis key lies in this cache's namespace. -/
def strHasNs (k : String) : Bool := listStartsWith flagKeyNs.data k.data

/-- `RedisCache.get`: the network read `self._redis.get(cache_key)` is not
inside a `try`, so its failure propagates; `if not data` treats a missing
key and an empty string alike; any deserialization failure is caught and
reported as a miss. -/
def RedisCache.get (decode : String → Option Flag) (netOk : Bool)
    (store : List (String × String)) (key : String) :
    Except RedisErr (Option Flag) × List (String × String) :=
  let cache_key := flagKeyNs ++ key
  if netOk then
    match listGet store cache_key with
    | none => (.ok none, store)
    | some data =>
        if data = "" then (.ok none, store)
        else
          match decode data with
          | some flag => (.ok (some flag), store)
          | none => (.ok none, store)
  else
    (.error .network, store)

/-- `RedisCache.set`: `self._redis.setex(cache_key, self._ttl, data)` with
no `try`, so a network failure propagates. -/
def RedisCache.set (encode : Flag → String) (_ttl : Int) (netOk : Bool)
    (store : List (String × String)) (key : String) (flag : Flag) :
    Except RedisErr Unit × List (String × String) :=
  let cache_key := flagKeyNs ++ key
  if netOk then
    (.ok (), listSet store cache_key (encode flag))
  else
    (.error .network, store)

/-- `RedisCache.delete`: `self._redis.delete(cache_key)` with no `try`. -/
def RedisCache.delete (netOk : Bool) (store : List (String × String))
    (key : String) : Except RedisErr Unit × List (String × String) :=
  let cache_key := flagKeyNs ++ key
  if netOk then
    (.ok (), listErase store cache_key)
  else
    (.error .network, store)

/-- `RedisCache.clear`: `keys = self._redis.keys(f"{self._prefix}*")`, then
`if keys: self._redis.delete(*keys)`. -/
def RedisCache.clear (netOk : Bool) (store : List (String × String)) :
    Except RedisErr Unit × List (String × String) :=
  if netOk then
    let keys := (store.map Prod.fst).filter strHasNs
    (.ok (), keys.foldl listErase store)
  else
    (.error .network, store)

/-! ## `create_cache` (`cache.py` lines 92–101)

`REDIS_AVAILABLE` (the import succeeded), the truthiness of
`settings.redis_url`, and whether the `RedisCache` constructor raises
(`connectOk = false`) are explicit arguments. -/

inductive CacheBackend
  | redisBackend (redis_url : String) (ttl : Int)
  | inMemoryBackend (c : InMemoryCache)

/-- Python truthiness of `settings.redis_url : Optional[str]`. -/
def strTruthy : Option String → Bool
  | none => false
  | some s => !(s == "")

/-- `create_cache`: Redis when available, configured and the constructor
succeeds; otherwise (including a constructor failure, caught by the
`except`) the in-memory cache with the configured TTL. -/
def create_cache (redisAvailable : Bool) (redis_url : Option String)
    (cache_ttl : Int) (connectOk : Bool) : CacheBackend :=
  if redisAvailable && strTruthy redis_url then
    if connectOk then
      .redisBackend (redis_url.getD "") cache_ttl
    else
      .inMemoryBackend (InMemoryCache.init cache_ttl)
  else
    .inMemoryBackend (InMemoryCache.init cache_ttl)

/-! ## Flag CRUD handlers (`routers/flags.py`)

Handlers run against an application state holding the database table and
the module-level `flag_cache` (the local backend, the default).  The
database commit is fallible: `commitOk = false` means `session.commit()`
raises, in which case the transaction is rolled back (the table is
unchanged) and the exception propagates out of the handler.  `float(value)`
and `json.loads(value)` from `_validate_flag_value` are modelled by the
predicate arguments `floatParses` and `jsonParses`. -/

inductive ApiError
  | badRequest (detail : String)
  | notFound (detail : String)
  | storeFault
deriving DecidableEq, Repr

/-- `str.lower()` as used by the validator (ASCII case mapping). -/
def strLower (s : String) : String := ⟨s.data.map Char.toLower⟩

/-- `_validate_flag_value` (`flags.py` lines 161–185), returning
`some (badRequest _)` where the source raises `HTTPException(400)`. -/
def validate_flag_value (floatParses jsonParses : String → Bool)
    (flag_type : FlagType) (value : String) : Option ApiError :=
  match flag_type with
  | .boolean =>
      if strLower value = "true" ∨ strLower value = "false" then none
      else some (.badRequest "Boolean flags must have value 'true' or 'false'")
  | .number =>
      if floatParses value then none
      else some (.badRequest "Number flags must have a numeric value")
  | .json =>
      if jsonParses value then none
      else some (.badRequest "JSON flags must have valid JSON value")
  | .string => none

structure AppState where
  db : List Flag
  cache : InMemoryCache

/-- `select(Flag).where(Flag.key == key)` followed by `.first()`. -/
def findByKey (db : List Flag) (key : String) : Option Flag :=
  db.find? (fun f => f.key == key)

/-- `session.get(Flag, flag_id)` — primary-key lookup. -/
def findById (db : List Flag) (flag_id : Int) : Option Flag :=
  db.find? (fun f => f.id == some flag_id)

/-- The table after a committed update of the row with primary key
`flag_id`. -/
def replaceById (db : List Flag) (flag_id : Int) (updated : Flag) :
    List Flag :=
  db.map (fun f => if f.id == some flag_id then updated else f)

/-- `create_flag` (`flags.py` lines 16–45): duplicate-key check, value
validation, insert + commit, and only then `flag_cache.set`.  `assignedId`
is the primary key the database assigns on insert. -/
def create_flag (floatParses jsonParses : String → Bool) (commitOk : Bool)
    (now assignedId : Int) (flag_data : FlagCreate) (st : AppState) :
    Except ApiError Flag × AppState :=
  match findByKey st.db flag_data.key with
  | some _ =>
      (.error (.badRequest
        ("Flag with key '" ++ flag_data.key ++ "' already exists")), st)
  | none =>
      match validate_flag_value floatParses jsonParses
          flag_data.type flag_data.value with
      | some e => (.error e, st)
      | none =>
          let new_flag : Flag :=
            { id := some assignedId, key := flag_data.key,
              name := flag_data.name, description := flag_data.description,
              type := flag_data.type, value := flag_data.value,
              enabled := flag_data.enabled,
              created_at := now, updated_at := now }
          if commitOk then
            (.ok new_flag,
             { db := st.db ++ [new_flag],
               cache := st.cache.set now new_flag.key new_flag })
          else
            (.error .storeFault, st)

/-- `get_flag_by_key` (`flags.py` lines 76–101): cache first (the lookup
may lazily evict an expired entry), then the table, populating the cache
on a successful load. -/
def get_flag_by_key (now : Int) (key : String) (st : AppState) :
    Except ApiError Flag × AppState :=
  match st.cache.get now key with
  | (some cached_flag, cache') => (.ok cached_flag, { st with cache := cache' })
  | (none, cache') =>
      match findByKey st.db key with
      | none =>
          (.error (.notFound ("Flag with key '" ++ key ++ "' not found")),
           { st with cache := cache' })
      | some flag =>
          (.ok flag, { db := st.db, cache := cache'.set now key flag })

/-- `update_flag` (`flags.py` lines 104–138): 404 check, validation of the
effective type/value when either is being set, write + commit, and only
then `flag_cache.delete(flag.key)`.  `FlagUpdate` has no `key` field, so
the key never changes. -/
def update_flag (floatParses jsonParses : String → Bool) (commitOk : Bool)
    (now : Int) (flag_id : Int) (flag_update : FlagUpdate) (st : AppState) :
    Except ApiError Flag × AppState :=
  match findById st.db flag_id with
  | none =>
      (.error (.notFound ("Flag with id " ++ toString flag_id ++ " not found")),
       st)
  | some flag =>
      let validation :=
        if flag_update.value.isSome || flag_update.type.isSome then
          validate_flag_value floatParses jsonParses
            (flag_update.type.getD flag.type)
            (flag_update.value.getD flag.value)
        else none
      match validation with
      | some e => (.error e, st)
      | none =>
          let updated : Flag :=
            { flag with
              name := flag_update.name.getD flag.name,
              description := flag_update.description.getD flag.description,
              type := flag_update.type.getD flag.type,
              value := flag_update.value.getD flag.value,
              enabled := flag_update.enabled.getD flag.enabled,
              updated_at := now }
          if commitOk then
            (.ok updated,
             { db := replaceById st.db flag_id updated,
               cache := st.cache.delete flag.key })
          else
            (.error .storeFault, st)

/-- `delete_flag` (`flags.py` lines 141–158): 404 check, then
`flag_cache.delete(flag.key)` BEFORE `session.delete`/`session.commit` —
the cache invalidation precedes the persistence step, so it survives a
failed commit. -/
def delete_flag (commitOk : Bool) (flag_id : Int) (st : AppState) :
    Except ApiError Unit × AppState :=
  match findById st.db flag_id with
  | none =>
      (.error (.notFound ("Flag with id " ++ toString flag_id ++ " not found")),
       st)
  | some flag =>
      let cache' := st.cache.delete flag.key
      if commitOk then
        (.ok (),
         { db := st.db.filter (fun f => !(f.id == some flag_id)),
           cache := cache' })
      else
        (.error .storeFault, { st with cache := cache' })

/-- A sample flag record used to instantiate witness statements. -/
def sampleFlag : Flag :=
  { id := some 1, key := "f1", name := "Feature 1", description := none,
    type := .boolean, value := "false", enabled := true,
    created_at := 0, updated_at := 0 }

/-- A sample application state: one persisted flag, cached at time 0 with
the default TTL of 30 seconds. -/
def sampleState : AppState :=
  { db := [sampleFlag],
    cache := (InMemoryCache.init 30).set 0 "f1" sampleFlag }

/-! ## Local cache lemmas -/

theorem set_get_within (c : InMemoryCache) (t now : Int) (k : String)
    (v : Flag) (h : now - t ≤ c.ttl) :
    (c.set t k v).get now k = (some v, c.set t k v) := by
  simp [InMemoryCache.get, InMemoryCache.set, Map.get, Map.set, not_lt.mpr h]

theorem set_get_expired (c : InMemoryCache) (t now : Int) (k : String)
    (v : Flag) (h : now - t > c.ttl) :
    (c.set t k v).get now k = (none, (c.set t k v).delete k) := by
  simp [InMemoryCache.get, InMemoryCache.set, InMemoryCache.delete,
    Map.get, Map.set, h]

theorem delete_get_none (c : InMemoryCache) (now : Int) (k : String) :
    (c.delete k).get now k = (none, c.delete k) := by
  simp [InMemoryCache.get, InMemoryCache.delete, Map.get, Map.erase]

theorem delete_of_absent (c : InMemoryCache) (k : String)
    (h : c.cache.get k = none) : c.delete k = c := by
  show ({ c with cache := c.cache.erase k } : InMemoryCache) = c
  rw [Map.erase_of_get_none c.cache k h]

/-- C5: on the local cache, a `get` within the TTL window of the `set`
returns the stored flag, and a `get` after the TTL has elapsed returns
absent and lazily evicts the entry (the resulting state is exactly the
state after `delete`). -/
theorem C5_local_ttl_semantics (c : InMemoryCache) (t now : Int) (k : String)
    (v : Flag) :
    (now - t ≤ c.ttl → (c.set t k v).get now k = (some v, c.set t k v)) ∧
    (now - t > c.ttl →
      (c.set t k v).get now k = (none, (c.set t k v).delete k)) :=
  ⟨set_get_within c t now k v, set_get_expired c t now k v⟩

/-- Witness for C5 at a concrete cache, key and flag (TTL 30, stored at
time 0, read at times 10 and 31). -/
theorem C5_local_ttl_semantics_witness :
    ((InMemoryCache.init 30).set 0 "f1" sampleFlag).get 10 "f1"
        = (some sampleFlag, (InMemoryCache.init 30).set 0 "f1" sampleFlag) ∧
    ((InMemoryCache.init 30).set 0 "f1" sampleFlag).get 31 "f1"
        = (none, ((InMemoryCache.init 30).set 0 "f1" sampleFlag).delete "f1") :=
  ⟨(C5_local_ttl_semantics (InMemoryCache.init 30) 0 10 "f1" sampleFlag).1
      (by decide),
   (C5_local_ttl_semantics (InMemoryCache.init 30) 0 31 "f1" sampleFlag).2
      (by decide)⟩

/-- C8: on the local cache, `delete` of an absent key leaves the state
unchanged (and, being a total function, raises nothing), `delete` after
`set` makes `get` return absent, and `delete` is idempotent. -/
theorem C8_local_delete_semantics (c : InMemoryCache) (k : String)
    (t now : Int) (v : Flag) :
    (c.cache.get k = none → c.delete k = c) ∧
    ((c.set t k v).delete k).get now k = (none, (c.set t k v).delete k) ∧
    (c.delete k).delete k = c.delete k := by
  refine ⟨delete_of_absent c k, delete_get_none _ now k, ?_⟩
  show ({ c with cache := (c.cache.erase k).erase k } : InMemoryCache)
      = { c with cache := c.cache.erase k }
  rw [Map.erase_erase]

/-- Witness for C8 at a concrete cache and key: the empty cache of TTL 30
has no entry for "f1", so deleting it is the identity, and delete after
set yields a miss. -/
theorem C8_local_delete_semantics_witness :
    (InMemoryCache.init 30).delete "f1" = InMemoryCache.init 30 ∧
    (((InMemoryCache.init 30).set 0 "f1" sampleFlag).delete "f1").get 0 "f1"
        = (none, ((InMemoryCache.init 30).set 0 "f1" sampleFlag).delete "f1") :=
  ⟨(C8_local_delete_semantics (InMemoryCache.init 30) "f1" 0 0 sampleFlag).1
      rfl,
   (C8_local_delete_semantics (InMemoryCache.init 30) "f1" 0 0 sampleFlag).2.1⟩

/-- C10: the value validator rejects (with a 400 `badRequest`) exactly
when the type is boolean and the lower-cased value is neither "true" nor
"false", or the type is number and the value does not parse as a float, or
the type is json and the value is not valid JSON; a string flag accepts
any value. -/
theorem C10_validate_iff (floatParses jsonParses : String → Bool)
    (t : FlagType) (v : String) :
    ((∃ d, validate_flag_value floatParses jsonParses t v
          = some (ApiError.badRequest d)) ↔
      (t = .boolean ∧ ¬(strLower v = "true" ∨ strLower v = "false")) ∨
      (t = .number ∧ floatParses v = false) ∨
      (t = .json ∧ jsonParses v = false)) ∧
    validate_flag_value floatParses jsonParses .string v = none := by
  constructor
  · cases t <;> simp only [validate_flag_value]
    · by_cases h : strLower v = "true" ∨ strLower v = "false" <;> simp [h]
    · simp
    · by_cases h : floatParses v <;> simp [h]
    · by_cases h : jsonParses v <;> simp [h]
  · rfl

/-! ## Factory fallback (C2) -/

/-- C2: with Redis support available and a redis URL configured, a failing
`RedisCache` constructor makes `create_cache` return the local in-memory
cache with the configured TTL (rather than raising), and `set`/`get` on
that cache succeed, returning the stored value within the TTL window. -/
theorem C2_factory_fallback (url : String) (cache_ttl t now : Int)
    (k : String) (v : Flag) (hurl : url ≠ "")
    (httl : now - t ≤ cache_ttl) :
    create_cache true (some url) cache_ttl false
        = .inMemoryBackend (InMemoryCache.init cache_ttl) ∧
    ((InMemoryCache.init cache_ttl).set t k v).get now k
        = (some v, (InMemoryCache.init cache_ttl).set t k v) := by
  constructor
  · simp [create_cache, strTruthy, hurl]
  · exact set_get_within (InMemoryCache.init cache_ttl) t now k v httl

/-- Witness for C2: a concrete unreachable URL, TTL 30, a round-trip at
time 0. -/
theorem C2_factory_fallback_witness :
    create_cache true (some "redis://localhost:6379") 30 false
        = .inMemoryBackend (InMemoryCache.init 30) ∧
    ((InMemoryCache.init 30).set 0 "f1" sampleFlag).get 0 "f1"
        = (some sampleFlag, (InMemoryCache.init 30).set 0 "f1" sampleFlag) :=
  C2_factory_fallback "redis://localhost:6379" 30 0 0 "f1" sampleFlag
    (by decide) (by decide)

/-! ## Redis keyspace lemmas -/

theorem listGet_listErase (store : List (String × String)) (k k' : String) :
    listGet (listErase store k) k'
      = if k' = k then none else listGet store k' := by
  induction store with
  | nil => by_cases h : k' = k <;> simp [listErase, listGet, h]
  | cons p rest ih =>
      obtain ⟨a, b⟩ := p
      by_cases ha : a = k
      · subst ha
        by_cases h' : k' = a
        · subst h'
          simp [listErase, listGet, ih]
        · simp [listErase, listGet, h', Ne.symm h', ih]
      · by_cases ha' : a = k'
        · have hk : k' ≠ k := fun h => ha (ha'.trans h)
          simp [listErase, listGet, ha, ha', hk]
        · simp [listErase, listGet, ha, ha', ih]

theorem listGet_eq_none_of_not_mem (store : List (String × String))
    (k : String) (h : ¬ k ∈ store.map Prod.fst) : listGet store k = none := by
  induction store with
  | nil => rfl
  | cons p rest ih =>
      obtain ⟨a, b⟩ := p
      simp only [List.map_cons, List.mem_cons] at h
      push_neg at h
      simp [listGet, Ne.symm h.1, ih h.2]

theorem listGet_foldl_erase (ks : List String)
    (store : List (String × String)) (k : String) :
    listGet (ks.foldl listErase store) k
      = if k ∈ ks then none else listGet store k := by
  induction ks generalizing store with
  | nil => simp
  | cons k0 ks ih =>
      simp only [List.foldl_cons, ih, listGet_listErase]
      by_cases h0 : k = k0
      · simp [h0]
      · by_cases hks : k ∈ ks <;> simp [h0, hks]

theorem listGet_listSet_ne (store : List (String × String)) (k k' v : String)
    (h : k' ≠ k) : listGet (listSet store k v) k' = listGet store k' := by
  induction store with
  | nil => simp [listSet, listGet, Ne.symm h]
  | cons p rest ih =>
      obtain ⟨a, b⟩ := p
      by_cases ha : a = k
      · simp [listSet, listGet, ha, Ne.symm h]
      · by_cases ha' : a = k' <;> simp [listSet, listGet, ha, ha', h, ih]

theorem listStartsWith_append (ns rest : List Char) :
    listStartsWith ns (ns ++ rest) = true := by
  induction ns with
  | nil => rfl
  | cons a as ih => simp [listStartsWith, ih]

theorem strHasNs_append (key : String) : strHasNs (flagKeyNs ++ key) = true := by
  unfold strHasNs
  rw [String.data_append]
  exact listStartsWith_append _ _

theorem ne_ns_append_of_not_hasNs (k key : String) (h : strHasNs k = false) :
    k ≠ flagKeyNs ++ key := by
  intro hk
  rw [hk, strHasNs_append] at h
  simp at h

/-- Characterization of a committed `clear`: exactly the namespaced keys
are removed. -/
theorem clear_store_get (store : List (String × String)) (k : String) :
    listGet (RedisCache.clear true store).2 k
      = if strHasNs k then none else listGet store k := by
  show listGet (((store.map Prod.fst).filter strHasNs).foldl listErase store) k
      = if strHasNs k then none else listGet store k
  rw [listGet_foldl_erase]
  by_cases hns : strHasNs k
  · by_cases hmem : k ∈ store.map Prod.fst
    · simp [List.mem_filter, hns, hmem]
    · simp [List.mem_filter, hns, hmem, listGet_eq_none_of_not_mem store k hmem]
  · simp [List.mem_filter, hns]

/-- The committed Redis `get` never raises. -/
theorem redis_get_isOk (decode : String → Option Flag)
    (store : List (String × String)) (key : String) :
    ∃ r, (RedisCache.get decode true store key).1 = .ok r := by
  unfold RedisCache.get
  cases h : listGet store (flagKeyNs ++ key) with
  | none => exact ⟨none, by simp [h]⟩
  | some data =>
      by_cases hd : data = ""
      · exact ⟨none, by simp [h, hd]⟩
      · cases hdec : decode data with
        | none => exact ⟨none, by simp [h, hd, hdec]⟩
        | some flag => exact ⟨some flag, by simp [h, hd, hdec]⟩

/-- `get` never writes to the keyspace, whatever the network does. -/
theorem redis_get_frame (decode : String → Option Flag) (netOk : Bool)
    (store : List (String × String)) (key : String) :
    (RedisCache.get decode netOk store key).2 = store := by
  cases netOk with
  | false => rfl
  | true =>
      unfold RedisCache.get
      cases h : listGet store (flagKeyNs ++ key) with
      | none => simp [h]
      | some data =>
          by_cases hd : data = ""
          · simp [h, hd]
          · cases hdec : decode data with
            | none => simp [h, hd, hdec]
            | some flag => simp [h, hd, hdec]

/-! ## Redis error handling (C3, C4) and namespacing (C7) -/

/-- C3 counterexample: `RedisCache`'s network calls are outside every
`try` block, so when the backend call fails, `get` does NOT return absent
— it raises — and `set`/`delete` raise as well, instead of swallowing the
error.  Shown at concrete inputs (empty keyspace, key "f1"). -/
theorem C3_counterexample :
    (RedisCache.get (fun _ => none) false [] "f1").1
        = Except.error RedisErr.network ∧
    (RedisCache.set (fun f => f.value) 30 false [] "f1" sampleFlag).1
        = Except.error RedisErr.network ∧
    (RedisCache.delete false [] "f1").1 = Except.error RedisErr.network :=
  ⟨rfl, rfl, rfl⟩

/-- C3 (amended): backend errors during `get`, `set`, `delete` (and
`clear`) propagate to the caller; when the backend calls succeed, no
operation raises (in particular a deserialization failure inside `get` is
still swallowed rather than raised). -/
theorem C3_error_propagation (decode : String → Option Flag)
    (encode : Flag → String) (ttl : Int) (store : List (String × String))
    (key : String) (v : Flag) :
    (RedisCache.get decode false store key).1
        = Except.error RedisErr.network ∧
    (RedisCache.set encode ttl false store key v).1
        = Except.error RedisErr.network ∧
    (RedisCache.delete false store key).1 = Except.error RedisErr.network ∧
    (RedisCache.clear false store).1 = Except.error RedisErr.network ∧
    (∃ r, (RedisCache.get decode true store key).1 = Except.ok r) ∧
    (RedisCache.set encode ttl true store key v).1 = Except.ok () ∧
    (RedisCache.delete true store key).1 = Except.ok () ∧
    (RedisCache.clear true store).1 = Except.ok () :=
  ⟨rfl, rfl, rfl, rfl, redis_get_isOk decode store key, rfl, rfl, rfl⟩

/-- C4: on a committed backend read, a payload that fails to deserialize
makes `get` return `ok none` with the keyspace untouched — bit-for-bit the
same result as a missing key — and no error escapes. -/
theorem C4_deserialization_is_miss (decode : String → Option Flag)
    (store : List (String × String)) (key : String) :
    (∀ data, listGet store (flagKeyNs ++ key) = some data →
        decode data = none →
        RedisCache.get decode true store key = (Except.ok none, store)) ∧
    (listGet store (flagKeyNs ++ key) = none →
        RedisCache.get decode true store key = (Except.ok none, store)) := by
  constructor
  · intro data hdata hdec
    unfold RedisCache.get
    by_cases hd : data = "" <;> simp [hdata, hdec, hd]
  · intro hnone
    unfold RedisCache.get
    simp [hnone]

/-- Witness for C4: the namespaced key "f1" holds the unparsable payload
"notjson"; `get` reports a miss and leaves the keyspace unchanged. -/
theorem C4_deserialization_is_miss_witness :
    listGet [(flagKeyNs ++ "f1", "notjson")] (flagKeyNs ++ "f1")
        = some "notjson" ∧
    RedisCache.get (fun _ => none) true [(flagKeyNs ++ "f1", "notjson")] "f1"
        = (Except.ok none, [(flagKeyNs ++ "f1", "notjson")]) :=
  ⟨by simp [listGet],
   (C4_deserialization_is_miss (fun _ => none)
       [(flagKeyNs ++ "f1", "notjson")] "f1").1 "notjson"
     (by simp [listGet]) rfl⟩

/-- C7: every `RedisCache` operation touches only keys carrying the fixed
namespace "openflag:flag:" — `get` never writes at all, `set` and `delete`
leave every non-namespaced key's binding unchanged, and a committed
`clear` removes exactly the namespaced keys. -/
theorem C7_namespace_discipline (decode : String → Option Flag)
    (encode : Flag → String) (ttl : Int) (store : List (String × String))
    (key k : String) (v : Flag) (hk : strHasNs k = false) :
    (∀ netOk, (RedisCache.get decode netOk store key).2 = store) ∧
    (∀ netOk, listGet (RedisCache.set encode ttl netOk store key v).2 k
        = listGet store k) ∧
    (∀ netOk, listGet (RedisCache.delete netOk store key).2 k
        = listGet store k) ∧
    (∀ netOk, listGet (RedisCache.clear netOk store).2 k = listGet store k) ∧
    (∀ k2, strHasNs k2 = true →
        listGet (RedisCache.clear true store).2 k2 = none) := by
  have hne : k ≠ flagKeyNs ++ key := ne_ns_append_of_not_hasNs k key hk
  refine ⟨fun netOk => redis_get_frame decode netOk store key, ?_, ?_, ?_, ?_⟩
  · intro netOk
    cases netOk with
    | false => rfl
    | true =>
        show listGet (listSet store (flagKeyNs ++ key) (encode v)) k
            = listGet store k
        exact listGet_listSet_ne store (flagKeyNs ++ key) k (encode v) hne
  · intro netOk
    cases netOk with
    | false => rfl
    | true =>
        show listGet (listErase store (flagKeyNs ++ key)) k = listGet store k
        rw [listGet_listErase, if_neg hne]
  · intro netOk
    cases netOk with
    | false => rfl
    | true =>
        rw [clear_store_get, if_neg]
        simp [hk]
  · intro k2 hk2
    rw [clear_store_get, if_pos hk2]

/-- Witness for C7: a keyspace holding one foreign key "other:key" and one
namespaced key; the foreign binding survives a committed `delete` and
`clear`, while the namespaced key is removed by `clear`. -/
theorem C7_namespace_discipline_witness :
    strHasNs "other:key" = false ∧
    listGet (RedisCache.clear true
          [("other:key", "d"), (flagKeyNs ++ "f1", "x")]).2 "other:key"
        = listGet [("other:key", "d"), (flagKeyNs ++ "f1", "x")] "other:key" ∧
    listGet (RedisCache.clear true
          [("other:key", "d"), (flagKeyNs ++ "f1", "x")]).2 (flagKeyNs ++ "f1")
        = none := by
  have h := C7_namespace_discipline (fun _ => none) (fun f => f.value) 30
    [("other:key", "d"), (flagKeyNs ++ "f1", "x")] "f1" "other:key"
    sampleFlag (by decide)
  exact ⟨by decide, h.2.2.2.1 true, h.2.2.2.2 (flagKeyNs ++ "f1")
    (strHasNs_append "f1")⟩

/-! ## Handler-level cache discipline (C1, C6) -/

/-- Uniqueness of flag keys across the table (enforced by the unique index
and the duplicate-key check in `create_flag`). -/
def keysDistinct (db : List Flag) : Prop := (db.map Flag.key).Nodup

theorem findByKey_replaceById (db : List Flag) (flag_id : Int)
    (flag updated : Flag) (hfind : findById db flag_id = some flag)
    (hkey : updated.key = flag.key) (hnd : keysDistinct db) :
    findByKey (replaceById db flag_id updated) updated.key = some updated := by
  induction db with
  | nil => cases hfind
  | cons f rest ih =>
      rw [keysDistinct, List.map_cons, List.nodup_cons] at hnd
      by_cases hf : (f.id == some flag_id) = true
      · have hffl : f = flag := by
          simpa [findById, List.find?, hf] using hfind
      -- the head row is the one replaced; the lookup hits it at once
        simp [replaceById, findByKey, List.find?, hf]
      · have hfind' : findById rest flag_id = some flag := by
          simpa [findById, List.find?, hf] using hfind
        have hmem : flag ∈ rest :=
          List.mem_of_find?_eq_some hfind'
        have hfk : (f.key == updated.key) = false := by
          rw [hkey]
          simp only [beq_eq_false_iff_ne, ne_eq]
          intro hcontra
          exact hnd.1 (hcontra ▸ List.mem_map_of_mem Flag.key hmem)
        have := ih hfind' hnd.2
        simpa [replaceById, findByKey, List.find?, hf, hfk] using this

/-- What a committed, successful `update_flag` did: the row it found by
primary key, and the resulting state — the table with that row replaced
and the cache with that row's key invalidated. -/
theorem update_flag_ok_spec (floatParses jsonParses : String → Bool)
    (now flag_id : Int) (fu : FlagUpdate) (st : AppState) (flag : Flag)
    (hok : (update_flag floatParses jsonParses true now flag_id fu st).1
        = Except.ok flag) :
    ∃ f, findById st.db flag_id = some f ∧ flag.key = f.key ∧
      (update_flag floatParses jsonParses true now flag_id fu st).2
        = { db := replaceById st.db flag_id flag,
            cache := st.cache.delete f.key } := by
  unfold update_flag at hok ⊢
  rcases hfind : findById st.db flag_id with _ | f
  · simp only [hfind] at hok
    cases hok
  · simp only [hfind] at hok ⊢
    refine ⟨f, rfl, ?_⟩
    rcases hv : (if fu.value.isSome || fu.type.isSome then
        validate_flag_value floatParses jsonParses (fu.type.getD f.type)
          (fu.value.getD f.value)
      else none) with _ | e
    · simp only [hv, if_true] at hok ⊢
      have hfl : { f with
          name := fu.name.getD f.name,
          description := fu.description.getD f.description,
          type := fu.type.getD f.type,
          value := fu.value.getD f.value,
          enabled := fu.enabled.getD f.enabled,
          updated_at := now } = flag := by
        exact Except.ok.inj hok
      subst hfl
      exact ⟨rfl, rfl⟩
    · simp only [hv] at hok
      cases hok

/-- C6: after a committed, successful `update_flag`, the cache entry for
the updated flag's key is absent (deleted, not overwritten), so the next
read by key misses the cache, reloads from the table, and returns the
updated record. -/
theorem C6_update_invalidates (floatParses jsonParses : String → Bool)
    (now now' flag_id : Int) (fu : FlagUpdate) (st : AppState) (flag : Flag)
    (hnd : keysDistinct st.db)
    (hok : (update_flag floatParses jsonParses true now flag_id fu st).1
        = Except.ok flag) :
    ((update_flag floatParses jsonParses true now flag_id fu st).2.cache.cache.get
        flag.key = none) ∧
    ((update_flag floatParses jsonParses true now flag_id fu st).2.cache.get
        now' flag.key
      = (none,
         (update_flag floatParses jsonParses true now flag_id fu st).2.cache)) ∧
    (get_flag_by_key now' flag.key
        (update_flag floatParses jsonParses true now flag_id fu st).2).1
      = Except.ok flag := by
  obtain ⟨f, hfind, hkey, hst⟩ :=
    update_flag_ok_spec floatParses jsonParses now flag_id fu st flag hok
  rw [hst]
  have hmiss : (st.cache.delete f.key).cache.get flag.key = none := by
    rw [hkey]
    exact Map.get_erase_self st.cache.cache f.key
  refine ⟨hmiss, ?_, ?_⟩
  · rw [hkey]
    exact delete_get_none st.cache now' f.key
  · unfold get_flag_by_key
    have hcget : (st.cache.delete f.key).get now' flag.key
        = (none, st.cache.delete f.key) := by
      rw [hkey]
      exact delete_get_none st.cache now' f.key
    rw [hcget]
    rw [findByKey_replaceById st.db flag_id f flag hfind hkey hnd]

/-- Witness for C6: updating the cached sample flag's value to "true"
deletes its cache entry, and the following read by key returns the
updated record from the table. -/
theorem C6_update_invalidates_witness :
    keysDistinct sampleState.db ∧
    (get_flag_by_key 6 "f1"
        (update_flag (fun _ => true) (fun _ => true) true 5 1
          { value := some "true" } sampleState).2).1
      = Except.ok { sampleFlag with value := "true", updated_at := 5 } := by
  refine ⟨by simp [keysDistinct, sampleState, sampleFlag], ?_⟩
  exact (C6_update_invalidates (fun _ => true) (fun _ => true) 5 6 1
    { value := some "true" } sampleState
    { sampleFlag with value := "true", updated_at := 5 }
    (by simp [keysDistinct, sampleState, sampleFlag]) rfl).2.2

/-- C1 counterexample: in `delete_flag` the cache invalidation is issued
BEFORE `session.delete`/`session.commit`, so when the commit fails the
request errors with a store fault and yet the cache entry for the affected
key — populated before the request — is gone. -/
theorem C1_counterexample :
    (delete_flag false 1 sampleState).1 = Except.error ApiError.storeFault ∧
    (sampleState.cache.get 0 "f1").1 = some sampleFlag ∧
    ((delete_flag false 1 sampleState).2.cache.get 0 "f1").1 = none :=
  ⟨rfl, rfl, rfl⟩

/-- C1 (amended): `create_flag` and `update_flag` leave the whole state —
in particular the cache entry for the affected key — unchanged on every
rejected or failed request, performing cache population/invalidation only
after the commit succeeded; `delete_flag` leaves the state unchanged on a
not-found rejection, but invalidates the cache entry before the store
delete commits, so a failed delete commit still removes the entry. -/
theorem C1_mutation_cache_discipline (floatParses jsonParses : String → Bool)
    (commitOk : Bool) (now assignedId flag_id : Int) (fc : FlagCreate)
    (fu : FlagUpdate) (st : AppState) :
    (∀ e, (create_flag floatParses jsonParses commitOk now assignedId fc st).1
          = Except.error e →
        (create_flag floatParses jsonParses commitOk now assignedId fc st).2
          = st) ∧
    (∀ e, (update_flag floatParses jsonParses commitOk now flag_id fu st).1
          = Except.error e →
        (update_flag floatParses jsonParses commitOk now flag_id fu st).2
          = st) ∧
    (findById st.db flag_id = none →
        (delete_flag commitOk flag_id st).2 = st) ∧
    (∀ flag, findById st.db flag_id = some flag →
        (delete_flag false flag_id st).1 = Except.error ApiError.storeFault ∧
        (delete_flag false flag_id st).2
          = { db := st.db, cache := st.cache.delete flag.key }) := by
  refine ⟨?_, ?_, ?_, ?_⟩
  · intro e he
    unfold create_flag at he ⊢
    rcases hfk : findByKey st.db fc.key with _ | f
    · rcases hv : validate_flag_value floatParses jsonParses fc.type fc.value
          with _ | err
      · cases commitOk
        · simp [hfk, hv]
        · simp only [hfk, hv, if_true] at he
          cases he
      · simp [hfk, hv]
    · simp [hfk]
  · intro e he
    unfold update_flag at he ⊢
    rcases hfind : findById st.db flag_id with _ | f
    · simp [hfind]
    · simp only [hfind] at he ⊢
      rcases hv : (if fu.value.isSome || fu.type.isSome then
          validate_flag_value floatParses jsonParses (fu.type.getD f.type)
            (fu.value.getD f.value)
        else none) with _ | e'
      · cases commitOk
        · simp [hv]
        · simp only [hv, if_true] at he
          cases he
      · simp [hv]
  · intro hfind
    unfold delete_flag
    simp [hfind]
  · intro flag hfind
    unfold delete_flag
    simp only [hfind]
    exact ⟨rfl, rfl⟩

/-- Witness for C1 (amended) at concrete inputs: an update of a
nonexistent id leaves the sample state untouched, and a delete whose
commit fails leaves the table untouched but the cache entry for "f1"
deleted. -/
theorem C1_mutation_cache_discipline_witness :
    (update_flag (fun _ => true) (fun _ => true) true 5 2
        { value := some "x" } sampleState).2 = sampleState ∧
    (delete_flag false 1 sampleState).2
      = { db := sampleState.db, cache := sampleState.cache.delete "f1" } := by
  constructor
  · exact (C1_mutation_cache_discipline (fun _ => true) (fun _ => true) true 5 1
      2 { key := "k2", name := "n" } { value := some "x" } sampleState).2.1
      (ApiError.notFound ("Flag with id " ++ toString (2 : Int) ++ " not found"))
      rfl
  · exact ((C1_mutation_cache_discipline (fun _ => true) (fun _ => true) false 5
      1 1 { key := "k2", name := "n" } { value := some "x" } sampleState).2.2.2
      sampleFlag rfl).2

end OpenFlag
